import Mathlib

/-!
Verification of the `mod-utils` repository: a shallow embedding of the
Conditionals predicate layer (`src/Conditionals/main.ts`) and the `match`
dispatcher (`src/Match/main.ts`) into Lean, together with theorems settling
the specification's claims about them.

JavaScript values are modelled by the inductive type `JsValue`.  Numbers are
modelled as integers plus a separate NaN constructor (non-integer floats play
no role in any claim).  Functions are modelled by an identifier into an
environment `Nat → JsValue → JsValue` supplied to the dispatcher, which
mirrors the fact that the dispatcher treats caller-supplied functions as
opaque callables.  Arrays and objects carry a reference identifier `rid`;
JavaScript strict equality `===` on arrays, objects and functions is
reference equality, which the embedding models by comparing identifiers
(distinct allocations receive distinct identifiers).
-/

namespace ModUtils

/-- Property keys of a JavaScript object: strings or symbols (symbols are
identified by the numeric identifier of the `Symbol()` allocation). -/
inductive JsKey where
  | str (s : String)
  | sym (sid : Nat)
deriving DecidableEq, Repr

/-- The universe of JavaScript values used by the repository, shallowly
embedded.  `num`/`nan` model the number type restricted to integral values
plus NaN; `func fid` is a callable identified by `fid`; `arr`/`obj` carry a
reference identifier and their contents. -/
inductive JsValue where
  | undef
  | nullV
  | bool (b : Bool)
  | num (n : Int)
  | nan
  | str (s : String)
  | sym (sid : Nat)
  | func (fid : Nat)
  | arr (rid : Nat) (elems : List JsValue)
  | obj (rid : Nat) (props : List (JsKey × JsValue))

/-- The default sentinel `const _def = Symbol("_def")` from `Match/main.ts`.
The embedding reserves symbol identifier 0 for it. -/
def _def : JsValue := JsValue.sym 0

/-- JavaScript `typeof`. -/
def typeofOf : JsValue → String
  | JsValue.undef => "undefined"
  | JsValue.nullV => "object"
  | JsValue.bool _ => "boolean"
  | JsValue.num _ => "number"
  | JsValue.nan => "number"
  | JsValue.str _ => "string"
  | JsValue.sym _ => "symbol"
  | JsValue.func _ => "function"
  | JsValue.arr _ _ => "object"
  | JsValue.obj _ _ => "object"

/-- JavaScript strict equality `===`.  Primitives compare by value (with
`NaN === x` always false); functions, arrays and objects compare by
reference, modelled by comparing their identifiers. -/
def jsStrictEq : JsValue → JsValue → Bool
  | JsValue.nan, _ => false
  | _, JsValue.nan => false
  | JsValue.undef, JsValue.undef => true
  | JsValue.nullV, JsValue.nullV => true
  | JsValue.bool a, JsValue.bool b => a == b
  | JsValue.num a, JsValue.num b => a == b
  | JsValue.str a, JsValue.str b => a == b
  | JsValue.sym a, JsValue.sym b => a == b
  | JsValue.func a, JsValue.func b => a == b
  | JsValue.arr a _, JsValue.arr b _ => a == b
  | JsValue.obj a _, JsValue.obj b _ => a == b
  | _, _ => false

/-- `Array.isArray`. -/
def arrayIsArray : JsValue → Bool
  | JsValue.arr _ _ => true
  | _ => false

/-- `Number.isNaN`. -/
def numberIsNaN : JsValue → Bool
  | JsValue.nan => true
  | _ => false

/-- `Number.isInteger` (every modelled non-NaN number is integral). -/
def numberIsInteger : JsValue → Bool
  | JsValue.num _ => true
  | _ => false

/-- JavaScript `val > 0` on the values the guarded sources apply it to
(numbers; comparisons involving NaN are false). -/
def numGtZero : JsValue → Bool
  | JsValue.num n => decide (0 < n)
  | _ => false

/-- JavaScript `val >= 0` on numbers (comparisons involving NaN are false). -/
def numGeZero : JsValue → Bool
  | JsValue.num n => decide (0 ≤ n)
  | _ => false

/-- `val.length` of a string value (only applied under an `isString` guard). -/
def strLenOf : JsValue → Nat
  | JsValue.str s => s.length
  | _ => 0

/-- `val.length` of an array value (only applied under an `isArray` guard). -/
def arrLenOf : JsValue → Nat
  | JsValue.arr _ l => l.length
  | _ => 0

/-- Conditionals `isNull`: `val === null`. -/
def isNull (val : JsValue) : Bool := jsStrictEq val JsValue.nullV

/-- Conditionals `isUndefined`: `typeof val === 'undefined'`. -/
def isUndefined (val : JsValue) : Bool := typeofOf val == "undefined"

/-- Conditionals `isMissing`: `isNull(val) || isUndefined(val)`. -/
def isMissing (val : JsValue) : Bool := isNull val || isUndefined val

/-- Conditionals `isPresent`: `!isMissing(val)`. -/
def isPresent (val : JsValue) : Bool := !isMissing val

/-- Conditionals `isBoolean`: `isPresent(val) && typeof val === 'boolean'`. -/
def isBoolean (val : JsValue) : Bool := isPresent val && (typeofOf val == "boolean")

/-- Conditionals `isArray`: `isPresent(val) && Array.isArray(val)`. -/
def isArray (val : JsValue) : Bool := isPresent val && arrayIsArray val

/-- Conditionals `isObject`:
`isPresent(val) && typeof val === 'object' && !isArray(val)`. -/
def isObject (val : JsValue) : Bool :=
  isPresent val && (typeofOf val == "object") && !isArray val

/-- Conditionals `isString`: `isPresent(val) && typeof val === 'string'`. -/
def isString (val : JsValue) : Bool := isPresent val && (typeofOf val == "string")

/-- Conditionals `isNumber`:
`isPresent(val) && typeof val === 'number' && !Number.isNaN(val)`. -/
def isNumber (val : JsValue) : Bool :=
  isPresent val && (typeofOf val == "number") && !numberIsNaN val

/-- Conditionals `isFunction`: `isPresent(val) && typeof val === 'function'`. -/
def isFunction (val : JsValue) : Bool :=
  isPresent val && (typeofOf val == "function")

/-- Conditionals `isNonEmptyString`: `isString(val) && val.length > 0`. -/
def isNonEmptyString (val : JsValue) : Bool :=
  isString val && decide (0 < strLenOf val)

/-- Conditionals `isNonEmptyArray`: `isArray(val) && val.length > 0`. -/
def isNonEmptyArray (val : JsValue) : Bool :=
  isArray val && decide (0 < arrLenOf val)

/-- Conditionals `isTrue`: `isBoolean(val) && val === true`. -/
def isTrue (val : JsValue) : Bool :=
  isBoolean val && jsStrictEq val (JsValue.bool true)

/-- Conditionals `isPositiveInteger`:
`isNumber(val) && Number.isInteger(val) && val > 0`. -/
def isPositiveInteger (val : JsValue) : Bool :=
  isNumber val && numberIsInteger val && numGtZero val

/-- Conditionals `isNonNegativeInteger`:
`isNumber(val) && Number.isInteger(val) && val >= 0`. -/
def isNonNegativeInteger (val : JsValue) : Bool :=
  isNumber val && numberIsInteger val && numGeZero val

/-- Conditionals `hasOneItem`: `isArray(val) && val.length === 1`. -/
def hasOneItem (val : JsValue) : Bool :=
  isArray val && (arrLenOf val == 1)

/-- Conditionals `hasMultipleItems`: `isArray(val) && val.length > 1`. -/
def hasMultipleItems (val : JsValue) : Bool :=
  isArray val && decide (1 < arrLenOf val)

/-- Conditionals `isEqual`: `val1 === val2`. -/
def isEqual (val1 val2 : JsValue) : Bool := jsStrictEq val1 val2

example : isPositiveInteger (JsValue.num 3) = true := rfl

example : isPositiveInteger (JsValue.num (-3)) = false := rfl

example : isNumber JsValue.nan = false := rfl

example : isObject (JsValue.obj 0 []) = true := rfl

example : isObject (JsValue.arr 0 []) = false := rfl

/-- Decimal digit value of a character, if it is a digit. -/
def digitVal (c : Char) : Option Nat :=
  if 48 ≤ c.toNat && c.toNat ≤ 57 then some (c.toNat - 48) else none

/-- Parse a list of characters as a decimal numeral (all characters must be
digits), accumulating left to right. -/
def parseDigitsAux : List Char → Nat → Option Nat
  | [], acc => some acc
  | c :: t, acc =>
    match digitVal c with
    | some d => parseDigitsAux t (acc * 10 + d)
    | none => none

/-- Determine whether a string is a canonical array-index property key per
the ECMAScript own-key ordering: a decimal numeral without leading zeros
whose value is below 2^32 - 1.  Returns the index when it is. -/
def parseCanonicalIndex (s : String) : Option Nat :=
  match s.data with
  | [] => none
  | c :: cs =>
    if c == '0' && !cs.isEmpty then none
    else
      match parseDigitsAux (c :: cs) 0 with
      | some n => if n < 4294967295 then some n else none
      | none => none

/-- Insert an (index, key) pair into a list sorted by index. -/
def insertPair (x : Nat × String) : List (Nat × String) → List (Nat × String)
  | [] => [x]
  | y :: t => if x.fst ≤ y.fst then x :: y :: t else y :: insertPair x t

/-- Insertion sort of (index, key) pairs by index, modelling the ascending
numeric ordering of array-index keys. -/
def insortPairs : List (Nat × String) → List (Nat × String)
  | [] => []
  | x :: t => insertPair x (insortPairs t)

/-- The string of a string key, if any. -/
def keyStr : JsKey → Option String
  | JsKey.str s => some s
  | JsKey.sym _ => none

/-- `Object.getOwnPropertyNames` on the property table of a plain object:
the string keys, array-index keys first in ascending numeric order, then the
remaining string keys in insertion order. -/
def ownPropNames (props : List (JsKey × JsValue)) : List String :=
  let strs := props.filterMap (fun p => keyStr p.fst)
  let idx := strs.filterMap
    (fun s => (parseCanonicalIndex s).map (fun n => (n, s)))
  let rest := strs.filter (fun s => (parseCanonicalIndex s).isNone)
  (insortPairs idx).map Prod.snd ++ rest

/-- `Object.getOwnPropertySymbols` on the property table of a plain object:
the symbol keys in insertion order. -/
def ownPropSymbols (props : List (JsKey × JsValue)) : List Nat :=
  props.filterMap (fun p =>
    match p.fst with
    | JsKey.sym i => some i
    | JsKey.str _ => none)

/-- Property access `arms[key]` on a plain object's property table
(`undefined` when the key is absent). -/
def lookupProp (props : List (JsKey × JsValue)) (k : JsKey) : JsValue :=
  (props.find? (fun p => p.fst == k)).elim JsValue.undef Prod.snd

/-- A property key as the value the `Match` normalizer stores in an arm. -/
def keyToValue : JsKey → JsValue
  | JsKey.str s => JsValue.str s
  | JsKey.sym i => JsValue.sym i

mutual

/-- JavaScript `ToString` on the modelled values (used by property-key
coercion; symbols are handled before `ToString` at every use site, and the
source text of a function is not observable, so those two cases are
placeholders that no guarded source path reaches). -/
def jsToStr : JsValue → String
  | JsValue.undef => "undefined"
  | JsValue.nullV => "null"
  | JsValue.bool b => cond b "true" "false"
  | JsValue.num n => toString n
  | JsValue.nan => "NaN"
  | JsValue.str s => s
  | JsValue.sym _ => "Symbol()"
  | JsValue.func _ => "function"
  | JsValue.arr _ elems => String.intercalate "," (jsToStrList elems)
  | JsValue.obj _ _ => "[object Object]"

/-- `ToString` of each element of a list of values. -/
def jsToStrList : List JsValue → List String
  | [] => []
  | v :: t => jsToStr v :: jsToStrList t

end

/-- JavaScript `ToPropertyKey`: symbols stay symbols, everything else is
coerced through `ToString`. -/
def toPropertyKey (k : JsValue) : JsKey :=
  match k with
  | JsValue.sym sid => JsKey.sym sid
  | v => JsKey.str (jsToStr v)

/-- The property names of `Object.prototype`, which the `in` operator finds
on every plain object through the prototype chain. -/
def objectProtoNames : List String :=
  ["constructor", "hasOwnProperty", "isPrototypeOf", "propertyIsEnumerable",
   "toLocaleString", "toString", "valueOf", "__defineGetter__",
   "__defineSetter__", "__lookupGetter__", "__lookupSetter__", "__proto__"]

/-- JavaScript `key in val` for a plain object: the coerced property key is
an own key or an `Object.prototype` member.  The repository only applies
`in` under an `isObject` guard, so other shapes are modelled as false. -/
def jsIn (k : JsValue) (v : JsValue) : Bool :=
  match v with
  | JsValue.obj _ props =>
    let pk := toPropertyKey k
    props.any (fun p => p.fst == pk) ||
      (match pk with
       | JsKey.str s => objectProtoNames.contains s
       | JsKey.sym _ => false)
  | _ => false

/-- Conditionals `hasOnlyKeys`: when `val` is an object and `keys` an array,
compare the number of `keys` entries that are `in` `val` with the number of
own enumerable string keys (`Object.keys`) and with `keys.length`; otherwise
false. -/
def hasOnlyKeys (val : JsValue) (keys : JsValue) : Bool :=
  match val, keys with
  | JsValue.obj rid props, JsValue.arr _ kelems =>
    let objKeys := ownPropNames props
    let propertiesInKeys := kelems.filter (fun k => jsIn k (JsValue.obj rid props))
    isEqual (JsValue.num propertiesInKeys.length) (JsValue.num objKeys.length) &&
      isEqual (JsValue.num objKeys.length) (JsValue.num kelems.length)
  | _, _ => false

/-- Byte-free substring search: `s.indexOf(sub)` returning `-1` when `sub`
does not occur in `s`, as `String.prototype.indexOf` does. -/
def strIndexOf (s sub : String) : Int :=
  match (List.range (s.length + 1)).find?
      (fun i => sub.data.isPrefixOf (s.data.drop i)) with
  | some i => Int.ofNat i
  | none => -1

/-- Property access `e.message` on a thrown value (`undefined` when the
thrown value is not an object carrying a string-keyed `message`). -/
def getProp (v : JsValue) (name : String) : JsValue :=
  match v with
  | JsValue.obj _ props =>
    (props.find? (fun p => p.fst == JsKey.str name)).elim JsValue.undef Prod.snd
  | _ => JsValue.undef

/-- Error kinds the repository distinguishes: `TypeError`-style errors for
shape validation and `ReferenceError` for the missing default arm. -/
inductive ErrKind where
  | typeError
  | referenceError
deriving DecidableEq, Repr

/-- A raised JavaScript error: its kind and message. -/
structure JsError where
  kind : ErrKind
  msg : String
deriving DecidableEq, Repr

/-- The observable outcome of attempting `new val()` on a callable: it
either succeeds or throws a value.  The behaviour of each callable is
supplied as an environment, since constructors are caller-supplied code. -/
inductive ConstructOutcome where
  | success
  | throws (errVal : JsValue)

/-- Conditionals `isConstructable`: a non-callable is not constructable; for
a callable, attempt `new val()`; on success it is constructable, and when
the attempt throws `err` the code evaluates
`!isNonNegativeInteger(err.message.indexOf('is not a constructor'))`, which
itself throws a `TypeError` when `err.message` is not a string. -/
def isConstructable (cenv : Nat → ConstructOutcome) (val : JsValue) :
    Except JsError Bool :=
  match val with
  | JsValue.func fid =>
    match cenv fid with
    | ConstructOutcome.success => Except.ok true
    | ConstructOutcome.throws e =>
      match getProp e "message" with
      | JsValue.str s =>
        Except.ok
          (!(isNonNegativeInteger (JsValue.num (strIndexOf s "is not a constructor"))))
      | _ => Except.error ⟨ErrKind.typeError, "err.message.indexOf is not a function"⟩
  | v => Except.ok (isFunction v)

example : ownPropNames [(JsKey.sym 0, JsValue.str "other"), (JsKey.str "5", JsValue.str "five")] = ["5"] := rfl

example : ownPropNames [(JsKey.str "b", JsValue.num 1), (JsKey.str "2", JsValue.num 2)] = ["2", "b"] := rfl

example : hasOnlyKeys (JsValue.obj 0 [(JsKey.str "a", JsValue.num 1)]) (JsValue.arr 1 [JsValue.str "a"]) = true := rfl

example : hasOnlyKeys (JsValue.obj 0 [(JsKey.str "a", JsValue.num 1)]) (JsValue.arr 1 [JsValue.str "a", JsValue.str "a"]) = false := rfl

example : hasOnlyKeys (JsValue.obj 0 [(JsKey.str "a", JsValue.num 1), (JsKey.str "b", JsValue.num 2)]) (JsValue.arr 1 [JsValue.str "a", JsValue.str "toString"]) = true := rfl

example : isConstructable (fun _ => ConstructOutcome.throws (JsValue.num 5)) (JsValue.func 0) = Except.error ⟨ErrKind.typeError, "err.message.indexOf is not a function"⟩ := rfl

example : isConstructable (fun _ => ConstructOutcome.throws (JsValue.obj 3 [(JsKey.str "message", JsValue.str "f is not a constructor")])) (JsValue.func 0) = Except.ok false := rfl

example : isConstructable (fun _ => ConstructOutcome.throws (JsValue.obj 3 [(JsKey.str "message", JsValue.str "boom")])) (JsValue.func 0) = Except.ok true := rfl

/-- One match arm, `{ matchExpression, evaluation }`, from `src/types`. -/
structure MatchArm where
  matchExpression : JsValue
  evaluation : JsValue

/-- Modelled from the spec: `throwIfEmptyArray` from the `ThrowIf` module is
not under `src/`; per the spec it raises the empty-matcher error, of the
generic type/value-style kind, exactly when the given list is empty. -/
def throwIfEmptyArray {α : Type} (l : List α) (msg : String) : Except JsError Unit :=
  if l.isEmpty then Except.error ⟨ErrKind.typeError, msg⟩ else Except.ok ()

/-- Modelled from the spec: `throwIfMissing` from the `ThrowIf` module is
not under `src/`; per the spec it raises an error of the given kind exactly
when the given value is missing (`null`/`undefined`, here: the `find` came
back empty). -/
def throwIfMissing {α : Type} (v : Option α) (msg : String) (kind : ErrKind) :
    Except JsError Unit :=
  match v with
  | none => Except.error ⟨kind, msg⟩
  | some _ => Except.ok ()

/-- `normalizeBasicMatcher`: every own key of the record (symbols first via
`Object.getOwnPropertySymbols`, then names via `Object.getOwnPropertyNames`)
becomes one arm `{ matchExpression: key, evaluation: arms[key] }`. -/
def normalizeBasicMatcher (arms : JsValue) : List MatchArm :=
  match arms with
  | JsValue.obj _ props =>
    ((ownPropSymbols props).map JsKey.sym ++ (ownPropNames props).map JsKey.str).map
      (fun key => ⟨keyToValue key, lookupProp props key⟩)
  | _ => []

/-- Indexing `a[i]` on an array value (`undefined` when out of bounds),
modelling the destructuring `[matchExpression, evaluation]`. -/
def jsIndex (a : JsValue) (i : Nat) : JsValue :=
  match a with
  | JsValue.arr _ l => l.getD i JsValue.undef
  | _ => JsValue.undef

/-- The arm an advanced-matcher entry destructures to:
`matchExpression` is the entry's first element, `evaluation` its second. -/
def extractArm (a : JsValue) : MatchArm := ⟨jsIndex a 0, jsIndex a 1⟩

/-- `normalizeAdvancedMatcher`: filter the entries to non-empty arrays and
destructure each survivor into an arm. -/
def normalizeAdvancedMatcher (arms : List JsValue) : List MatchArm :=
  (arms.filter (fun a => isNonEmptyArray a)).map extractArm

/-- The predicate of the default-arm `find`:
`arm.matchExpression === _def`. -/
def defaultPred (arm : MatchArm) : Bool := jsStrictEq arm.matchExpression _def

/-- Invocation of a caller-supplied callable with one argument, through the
function environment (only applied under an `isFunction` guard). -/
def applyFn (env : Nat → JsValue → JsValue) (f : JsValue) (v : JsValue) : JsValue :=
  match f with
  | JsValue.func fid => env fid v
  | _ => JsValue.undef

/-- The predicate of the explicit-match `find`: the default arm never
matches; a callable matchExpression matches when invoking it with the input
value returns exactly boolean true; any other matchExpression matches when
it is strictly equal to the input value. -/
def explicitPred (env : Nat → JsValue → JsValue) (val : JsValue)
    (arm : MatchArm) : Bool :=
  if jsStrictEq arm.matchExpression _def then false
  else if isFunction arm.matchExpression then
    isTrue (applyFn env arm.matchExpression val)
  else isEqual arm.matchExpression val

/-- The result-production step of `match`: a callable evaluation is invoked
with the input value; any other evaluation is returned as-is. -/
def evalEvaluation (env : Nat → JsValue → JsValue) (val : JsValue)
    (evaluation : JsValue) : JsValue :=
  if isFunction evaluation then applyFn env evaluation val else evaluation

/-- Lines 61-87 of `Match/main.ts`: validate the normalized arms (non-empty,
containing a default arm), search for the first explicit match, and produce
the selected arm's evaluation. -/
def matchArms (env : Nat → JsValue → JsValue) (val : JsValue)
    (arms : List MatchArm) : Except JsError JsValue :=
  match throwIfEmptyArray arms "`matcher` has to contain at least one arm" with
  | Except.error e => Except.error e
  | Except.ok _ =>
    let defaultArm? := arms.find? defaultPred
    match throwIfMissing defaultArm? "`matcher` needs to contain a default `_def` arm"
        ErrKind.referenceError with
    | Except.error e => Except.error e
    | Except.ok _ =>
      let defaultArm := defaultArm?.getD ⟨JsValue.undef, JsValue.undef⟩
      let evaluation :=
        match arms.find? (explicitPred env val) with
        | some m => m.evaluation
        | none => defaultArm.evaluation
      Except.ok (evalEvaluation env val evaluation)

/-- The normalization step of `match`: a record matcher goes through
`normalizeBasicMatcher`; otherwise `[matcher, ...potentialRestOfMatcher]`
goes through `normalizeAdvancedMatcher`. -/
def normalizeMatcher (args : List JsValue) : List MatchArm :=
  let matcher := args.headD JsValue.undef
  if isObject matcher then normalizeBasicMatcher matcher
  else normalizeAdvancedMatcher (matcher :: args.tail)

/-- `match(val)(...args)` from `Match/main.ts`: destructure
`[matcher, ...potentialRestOfMatcher]` from the call arguments, reject a
matcher that is neither an object nor an array, normalize, validate, select
and evaluate. -/
def jsMatch (env : Nat → JsValue → JsValue) (val : JsValue)
    (args : List JsValue) : Except JsError JsValue :=
  let matcher := args.headD JsValue.undef
  if isObject matcher || isArray matcher then
    matchArms env val (normalizeMatcher args)
  else
    Except.error ⟨ErrKind.typeError, "`matcher` has to be either an Object or an Array"⟩

/-- The caller-supplied callables of the specification's examples:
identifier 0 is the predicate `isPositiveInteger` used as a match
expression, identifier 1 is the template evaluation
`(v) => positive-colon-v`. -/
def demoEnv : Nat → JsValue → JsValue
  | 0, v => JsValue.bool (isPositiveInteger v)
  | 1, v => JsValue.str ("positive:" ++ jsToStr v)
  | _, _ => JsValue.undef

/-- An environment with no interesting callables, for witnesses. -/
def trivEnv : Nat → JsValue → JsValue := fun _ _ => JsValue.undef

/-- The record `{ [_def]: "other", 5: "five" }` of the specification's basic
example: the numeric key 5 is stored as the string key `"5"`. -/
def basicDemoObj : JsValue :=
  JsValue.obj 0 [(JsKey.sym 0, JsValue.str "other"), (JsKey.str "5", JsValue.str "five")]

example : jsMatch demoEnv (JsValue.num 5) [basicDemoObj] = Except.ok (JsValue.str "other") := rfl

example : jsMatch demoEnv (JsValue.str "5") [basicDemoObj] = Except.ok (JsValue.str "five") := rfl

example : jsMatch demoEnv (JsValue.num 6) [basicDemoObj] = Except.ok (JsValue.str "other") := rfl

example : jsMatch demoEnv (JsValue.num (-3))
    [JsValue.arr 0 [JsValue.arr 1 [JsValue.func 0, JsValue.str "pos"],
                    JsValue.arr 2 [_def, JsValue.str "not-pos"]]]
    = Except.error ⟨ErrKind.referenceError, "`matcher` needs to contain a default `_def` arm"⟩ := rfl

example : jsMatch demoEnv (JsValue.num (-3))
    [JsValue.arr 1 [JsValue.func 0, JsValue.str "pos"],
     JsValue.arr 2 [_def, JsValue.str "not-pos"]]
    = Except.ok (JsValue.str "not-pos") := rfl

example : jsMatch demoEnv (JsValue.num 3)
    [JsValue.arr 1 [JsValue.func 0, JsValue.func 1],
     JsValue.arr 2 [_def, JsValue.str "n/a"]]
    = Except.ok (JsValue.str "positive:3") := rfl

example : jsMatch trivEnv (JsValue.num 0) [JsValue.arr 0 []]
    = Except.error ⟨ErrKind.typeError, "`matcher` has to contain at least one arm"⟩ := rfl

example : jsMatch trivEnv (JsValue.num 0) [JsValue.num 42]
    = Except.error ⟨ErrKind.typeError, "`matcher` has to be either an Object or an Array"⟩ := rfl

example : jsMatch trivEnv (JsValue.num 0)
    [JsValue.arr 1 [_def, JsValue.str "a"], JsValue.arr 2 [_def, JsValue.str "b"]]
    = Except.ok (JsValue.str "a") := rfl

theorem jsStrictEq_def_true_iff (x : JsValue) : jsStrictEq x _def = true ↔ x = _def := by
  cases x <;> simp [jsStrictEq, _def]

theorem isFunction_true_iff (x : JsValue) :
    isFunction x = true ↔ ∃ fid, x = JsValue.func fid := by
  cases x <;>
    simp [isFunction, isPresent, isMissing, isNull, isUndefined, typeofOf, jsStrictEq]

theorem isTrue_true_iff (x : JsValue) : isTrue x = true ↔ x = JsValue.bool true := by
  cases x <;>
    simp [isTrue, isBoolean, isPresent, isMissing, isNull, isUndefined, typeofOf,
      jsStrictEq]

theorem find?_append_cons_of {α : Type} (p : α → Bool) (pre post : List α) (a : α)
    (hpre : ∀ b ∈ pre, p b = false) (ha : p a = true) :
    (pre ++ a :: post).find? p = some a := by
  induction pre with
  | nil => simp [List.find?_cons, ha]
  | cons b t ih =>
    have hb : p b = false := hpre b (List.mem_cons_self b t)
    rw [List.cons_append, List.find?_cons, hb]
    exact ih (fun x hx => hpre x (List.mem_cons_of_mem b hx))

theorem matchArms_empty (env : Nat → JsValue → JsValue) (val : JsValue) :
    matchArms env val [] =
      Except.error ⟨ErrKind.typeError, "`matcher` has to contain at least one arm"⟩ := rfl

theorem matchArms_reduce (env : Nat → JsValue → JsValue) (val : JsValue)
    (arms : List MatchArm) (d : MatchArm)
    (hd : arms.find? defaultPred = some d) :
    matchArms env val arms =
      Except.ok (evalEvaluation env val
        ((arms.find? (explicitPred env val)).elim d.evaluation MatchArm.evaluation)) := by
  have hne : arms.isEmpty = false := by
    cases arms with
    | nil => exact Option.noConfusion hd
    | cons a t => rfl
  simp only [matchArms, throwIfEmptyArray, throwIfMissing, hne, Bool.false_eq_true,
    if_false, hd]
  cases hf : arms.find? (explicitPred env val) <;> simp [hf, Option.elim]

theorem matchArms_find_none (env : Nat → JsValue → JsValue) (val : JsValue)
    (arms : List MatchArm) (hne : arms ≠ [])
    (h : arms.find? defaultPred = none) :
    matchArms env val arms =
      Except.error ⟨ErrKind.referenceError, "`matcher` needs to contain a default `_def` arm"⟩ := by
  have hempty : arms.isEmpty = false := by
    cases arms with
    | nil => exact absurd rfl hne
    | cons a t => rfl
  simp [matchArms, throwIfEmptyArray, throwIfMissing, hempty, h]

/-- C1: for every input value and every normalized arm list containing a
default arm, the explicit scan visits arms in list order and skips the
default arm; an arm with a callable matchExpression matches exactly when
invoking it with the input returns the boolean value true, and one with a
non-callable matchExpression matches exactly when it is strictly equal to
the input; the first matching arm's evaluation is produced, and when no
non-default arm matches, the (first) default arm's evaluation is produced. -/
theorem match_scan_semantics (env : Nat → JsValue → JsValue) (v : JsValue)
    (arms : List MatchArm) (d : MatchArm)
    (hd : arms.find? defaultPred = some d) :
    (∀ a : MatchArm, explicitPred env v a = true ↔
        (a.matchExpression ≠ _def ∧
          ((∃ fid, a.matchExpression = JsValue.func fid ∧ env fid v = JsValue.bool true) ∨
           ((∀ fid, a.matchExpression ≠ JsValue.func fid) ∧
             jsStrictEq a.matchExpression v = true))))
    ∧ (∀ pre a post, arms = pre ++ a :: post →
        explicitPred env v a = true →
        (∀ b ∈ pre, explicitPred env v b = false) →
        matchArms env v arms = Except.ok (evalEvaluation env v a.evaluation))
    ∧ ((∀ a ∈ arms, explicitPred env v a = false) →
        matchArms env v arms = Except.ok (evalEvaluation env v d.evaluation)) := by
  refine ⟨?_, ?_, ?_⟩
  · intro a
    by_cases hdef : a.matchExpression = _def
    · constructor
      · intro hp
        exfalso
        rw [explicitPred] at hp
        rw [(jsStrictEq_def_true_iff a.matchExpression).mpr hdef] at hp
        simp at hp
      · rintro ⟨hne, _⟩
        exact absurd hdef hne
    · have hsd : jsStrictEq a.matchExpression _def = false := by
        cases h : jsStrictEq a.matchExpression _def
        · rfl
        · exact absurd ((jsStrictEq_def_true_iff a.matchExpression).mp h) hdef
      by_cases hfun : isFunction a.matchExpression = true
      · obtain ⟨fid, hfid⟩ := (isFunction_true_iff a.matchExpression).mp hfun
        rw [explicitPred, hfid]
        simp only [show jsStrictEq (JsValue.func fid) _def = false from rfl,
          Bool.false_eq_true, if_false,
          show isFunction (JsValue.func fid) = true from rfl, if_true, applyFn]
        rw [isTrue_true_iff]
        constructor
        · intro h
          exact ⟨by simp [_def], Or.inl ⟨fid, rfl, h⟩⟩
        · rintro ⟨_, ⟨fid2, hf2, h2⟩ | ⟨hall, _⟩⟩
          · rw [JsValue.func.injEq] at hf2
            rw [hf2]
            exact h2
          · exact absurd rfl (hall fid)
      · have hnf : ∀ fid, a.matchExpression ≠ JsValue.func fid := by
          intro fid h
          exact hfun ((isFunction_true_iff a.matchExpression).mpr ⟨fid, h⟩)
        have hfunf : isFunction a.matchExpression = false := by
          cases h : isFunction a.matchExpression
          · rfl
          · exact absurd h hfun
        rw [explicitPred, hsd]
        simp only [Bool.false_eq_true, if_false, hfunf, isEqual]
        constructor
        · intro h
          exact ⟨hdef, Or.inr ⟨hnf, h⟩⟩
        · rintro ⟨_, ⟨fid2, hf2, _⟩ | ⟨_, h2⟩⟩
          · exact absurd hf2 (hnf fid2)
          · exact h2
  · intro pre a post heq hpa hpre
    have hfind : arms.find? (explicitPred env v) = some a := by
      rw [heq]
      exact find?_append_cons_of (explicitPred env v) pre post a hpre hpa
    rw [matchArms_reduce env v arms d hd, hfind]
    rfl
  · intro hall
    have hfind : arms.find? (explicitPred env v) = none :=
      List.find?_eq_none.mpr (fun x hx => by rw [hall x hx]; simp)
    rw [matchArms_reduce env v arms d hd, hfind]
    rfl

/-- Closed instance of the C1 theorem: with arms `[{9, "w"}, {_def, "d"}]`
and input 3, no non-default arm matches and the default evaluation `"d"` is
produced. -/
theorem match_scan_semantics_witness :
    matchArms demoEnv (JsValue.num 3)
        [⟨JsValue.num 9, JsValue.str "w"⟩, ⟨_def, JsValue.str "d"⟩] =
      Except.ok (JsValue.str "d") :=
  (match_scan_semantics demoEnv (JsValue.num 3)
      [⟨JsValue.num 9, JsValue.str "w"⟩, ⟨_def, JsValue.str "d"⟩]
      ⟨_def, JsValue.str "d"⟩ rfl).2.2
    (by
      intro a ha
      rcases List.mem_cons.mp ha with h | h
      · rw [h]; rfl
      · rw [List.mem_singleton.mp h]; rfl)

/-- C5: for every selected arm, a callable evaluation is invoked with
exactly the original input value and its result returned, while a
non-callable evaluation is returned verbatim; this holds both for an
explicitly matched arm and for the default arm. -/
theorem match_result_production (env : Nat → JsValue → JsValue) (v : JsValue)
    (arms : List MatchArm) (d : MatchArm)
    (hd : arms.find? defaultPred = some d) :
    (∀ m : MatchArm, arms.find? (explicitPred env v) = some m →
      ((∀ fid, m.evaluation = JsValue.func fid →
          matchArms env v arms = Except.ok (env fid v)) ∧
       (isFunction m.evaluation = false →
          matchArms env v arms = Except.ok m.evaluation)))
    ∧ (arms.find? (explicitPred env v) = none →
      ((∀ fid, d.evaluation = JsValue.func fid →
          matchArms env v arms = Except.ok (env fid v)) ∧
       (isFunction d.evaluation = false →
          matchArms env v arms = Except.ok d.evaluation))) := by
  constructor
  · intro m hm
    rw [matchArms_reduce env v arms d hd, hm]
    constructor
    · intro fid hf
      rw [Option.elim_some, hf]
      rfl
    · intro hnf
      rw [Option.elim_some, evalEvaluation, hnf]
      simp
  · intro hnone
    rw [matchArms_reduce env v arms d hd, hnone]
    constructor
    · intro fid hf
      rw [Option.elim_none, hf]
      rfl
    · intro hnf
      rw [Option.elim_none, evalEvaluation, hnf]
      simp

/-- Closed instance of the C5 theorem: the matched arm's evaluation is the
callable 1, which is invoked with the input 3. -/
theorem match_result_production_witness :
    matchArms demoEnv (JsValue.num 3)
        [⟨JsValue.num 3, JsValue.func 1⟩, ⟨_def, JsValue.str "d"⟩] =
      Except.ok (JsValue.str "positive:3") :=
  ((match_result_production demoEnv (JsValue.num 3)
      [⟨JsValue.num 3, JsValue.func 1⟩, ⟨_def, JsValue.str "d"⟩]
      ⟨_def, JsValue.str "d"⟩ rfl).1
    ⟨JsValue.num 3, JsValue.func 1⟩ rfl).1 1 rfl

/-- C6: for every input value, `match(v)([])` raises the empty-matcher error
and `match(v)([[x, y]])` with no default-sentinel entry raises the
missing-default error, whose kind (ReferenceError) is distinguishable from
the type/value kind of the other two validation errors. -/
theorem match_validation_errors (env : Nat → JsValue → JsValue)
    (v x y : JsValue) (_hx : x ≠ _def) :
    jsMatch env v [JsValue.arr 0 []] =
        Except.error ⟨ErrKind.typeError, "`matcher` has to contain at least one arm"⟩
    ∧ jsMatch env v [JsValue.arr 0 [JsValue.arr 1 [x, y]]] =
        Except.error ⟨ErrKind.referenceError, "`matcher` needs to contain a default `_def` arm"⟩
    ∧ jsMatch env v [JsValue.num 42] =
        Except.error ⟨ErrKind.typeError, "`matcher` has to be either an Object or an Array"⟩
    ∧ ErrKind.referenceError ≠ ErrKind.typeError :=
  ⟨rfl, rfl, rfl, by simp⟩

/-- Closed instance of the C6 theorem at `x = 1`, `y = 2`, input 0. -/
theorem match_validation_errors_witness :
    jsMatch trivEnv (JsValue.num 0)
        [JsValue.arr 0 [JsValue.arr 1 [JsValue.num 1, JsValue.num 2]]] =
      Except.error ⟨ErrKind.referenceError, "`matcher` needs to contain a default `_def` arm"⟩ :=
  (match_validation_errors trivEnv (JsValue.num 0) (JsValue.num 1) (JsValue.num 2)
    (by simp [_def])).2.1

/-- The advanced-form normalization as the amended claim words it: filter
the argument list `[matcher, ...rest]` to entries that are non-empty
sequences (of any length); a survivor contributes one arm whose
matchExpression is its first element and whose evaluation is its second
element (or `undefined` when absent, extra elements ignored); every other
entry is silently dropped. -/
def amendedAdvancedArms : List JsValue → List MatchArm
  | [] => []
  | JsValue.arr _ (e :: rest) :: t =>
    ⟨e, rest.headD JsValue.undef⟩ :: amendedAdvancedArms t
  | _ :: t => amendedAdvancedArms t

/-- C2 fails on the code as stated: the first call argument is itself one
candidate entry (its own entries are not spread into the arm list), and a
one-element entry survives the non-empty filter instead of being dropped as
an invalid two-element sequence. -/
theorem advanced_normalization_counterexample :
    normalizeMatcher [JsValue.arr 0 [JsValue.arr 1 [JsValue.num 1, JsValue.num 2]]] ≠
        [⟨JsValue.num 1, JsValue.num 2⟩]
    ∧ normalizeAdvancedMatcher [JsValue.arr 2 [JsValue.num 7]] =
        [⟨JsValue.num 7, JsValue.undef⟩] := by
  constructor
  · intro h
    rw [show normalizeMatcher [JsValue.arr 0 [JsValue.arr 1 [JsValue.num 1, JsValue.num 2]]] =
        [⟨JsValue.arr 1 [JsValue.num 1, JsValue.num 2], JsValue.undef⟩] from rfl] at h
    simp at h
  · rfl

/-- C2 amended: the list of call arguments (the first of which is the
`matcher` itself) is filtered to non-empty sequences of any length; each
survivor becomes the arm of its first element and its second element (or
`undefined`), and all other entries are silently dropped. -/
theorem advanced_normalization_amended (args : List JsValue) :
    normalizeAdvancedMatcher args = amendedAdvancedArms args := by
  induction args with
  | nil => rfl
  | cons a t ih =>
    cases a with
    | arr rid elems =>
      cases elems with
      | nil => exact ih
      | cons e rest =>
        have hp : isNonEmptyArray (JsValue.arr rid (e :: rest)) = true := by
          simp [isNonEmptyArray, isArray, isPresent, isMissing, isNull, isUndefined,
            typeofOf, jsStrictEq, arrayIsArray, arrLenOf]
        have ih2 : (t.filter (fun a => isNonEmptyArray a)).map extractArm =
            amendedAdvancedArms t := ih
        simp only [normalizeAdvancedMatcher, List.filter_cons, hp, if_true, List.map_cons,
          amendedAdvancedArms, ih2, List.cons.injEq, and_true]
        cases rest <;> rfl
    | undef => exact ih
    | nullV => exact ih
    | bool b => exact ih
    | num n => exact ih
    | nan => exact ih
    | str s => exact ih
    | sym sid => exact ih
    | func fid => exact ih
    | obj rid props => exact ih

/-- Closed instance of the C2 amended theorem on a two-argument call. -/
theorem advanced_normalization_amended_witness :
    normalizeAdvancedMatcher [JsValue.arr 2 [JsValue.num 7], JsValue.num 9] =
      amendedAdvancedArms [JsValue.arr 2 [JsValue.num 7], JsValue.num 9] :=
  advanced_normalization_amended [JsValue.arr 2 [JsValue.num 7], JsValue.num 9]

/-- C3 fails on the code as stated: the record key `5` is stored as the
string key `"5"`, which is not strictly equal to the number 5, so
`match(5)({ [_def]: "other", 5: "five" })` selects the default arm. -/
theorem basic_example_counterexample :
    jsMatch demoEnv (JsValue.num 5) [basicDemoObj] ≠ Except.ok (JsValue.str "five") := by
  rw [show jsMatch demoEnv (JsValue.num 5) [basicDemoObj] =
      Except.ok (JsValue.str "other") from rfl]
  simp

/-- C3 amended: `match(5)` on the record returns `"other"` (the numeric key
is stored as the string `"5"`, which is not strictly equal to the number 5);
`match("5")` returns `"five"`; `match(6)` returns `"other"`. -/
theorem basic_examples_amended :
    jsMatch demoEnv (JsValue.num 5) [basicDemoObj] = Except.ok (JsValue.str "other")
    ∧ jsMatch demoEnv (JsValue.str "5") [basicDemoObj] = Except.ok (JsValue.str "five")
    ∧ jsMatch demoEnv (JsValue.num 6) [basicDemoObj] = Except.ok (JsValue.str "other") :=
  ⟨rfl, rfl, rfl⟩

/-- C4 fails on the code as stated: passing the whole arm list as a single
array argument makes that array the only candidate entry, so no arm carries
the default sentinel and both example calls raise the missing-default
ReferenceError instead of returning the stated results. -/
theorem advanced_examples_counterexample :
    jsMatch demoEnv (JsValue.num (-3))
        [JsValue.arr 0 [JsValue.arr 1 [JsValue.func 0, JsValue.str "pos"],
                        JsValue.arr 2 [_def, JsValue.str "not-pos"]]] =
      Except.error ⟨ErrKind.referenceError, "`matcher` needs to contain a default `_def` arm"⟩
    ∧ jsMatch demoEnv (JsValue.num 3)
        [JsValue.arr 0 [JsValue.arr 1 [JsValue.func 0, JsValue.func 1],
                        JsValue.arr 2 [_def, JsValue.str "n/a"]]] ≠
      Except.ok (JsValue.str "positive:3") := by
  constructor
  · rfl
  · rw [show jsMatch demoEnv (JsValue.num 3)
        [JsValue.arr 0 [JsValue.arr 1 [JsValue.func 0, JsValue.func 1],
                        JsValue.arr 2 [_def, JsValue.str "n/a"]]] =
      Except.error ⟨ErrKind.referenceError, "`matcher` needs to contain a default `_def` arm"⟩
      from rfl]
    simp

/-- C4 amended: with each arm passed as its own call argument, the example
calls return the stated results: `match(-3)([isPositiveInteger, "pos"],
[_def, "not-pos"])` gives `"not-pos"` and `match(3)([isPositiveInteger,
v => positive-template], [_def, "n/a"])` gives `"positive:3"`. -/
theorem advanced_examples_amended :
    jsMatch demoEnv (JsValue.num (-3))
        [JsValue.arr 1 [JsValue.func 0, JsValue.str "pos"],
         JsValue.arr 2 [_def, JsValue.str "not-pos"]] =
      Except.ok (JsValue.str "not-pos")
    ∧ jsMatch demoEnv (JsValue.num 3)
        [JsValue.arr 1 [JsValue.func 0, JsValue.func 1],
         JsValue.arr 2 [_def, JsValue.str "n/a"]] =
      Except.ok (JsValue.str "positive:3") :=
  ⟨rfl, rfl⟩

/-- C8 fails on the code as stated: a matcher with two default arms is
accepted (no validation error) even though its normalized arm list does not
contain exactly one default arm; the first default arm's evaluation wins. -/
theorem multiple_defaults_accepted_counterexample :
    jsMatch trivEnv (JsValue.num 0)
        [JsValue.arr 1 [_def, JsValue.str "a"], JsValue.arr 2 [_def, JsValue.str "b"]] =
      Except.ok (JsValue.str "a")
    ∧ (normalizeMatcher
        [JsValue.arr 1 [_def, JsValue.str "a"], JsValue.arr 2 [_def, JsValue.str "b"]]).countP
        defaultPred = 2 :=
  ⟨rfl, rfl⟩

/-- C8 amended: every arm list accepted by `match` contains at least one
default arm, and a matcher of valid shape whose non-empty normalized arm
list has no default arm is rejected with the ReferenceError-kind
missing-default error; more than one default arm is accepted, with the
first one used. -/
theorem match_default_required (env : Nat → JsValue → JsValue) (val : JsValue)
    (args : List JsValue) :
    (∀ r, jsMatch env val args = Except.ok r →
        ∃ a ∈ normalizeMatcher args, defaultPred a = true)
    ∧ ((isObject (args.headD JsValue.undef) || isArray (args.headD JsValue.undef)) = true →
        normalizeMatcher args ≠ [] →
        (∀ a ∈ normalizeMatcher args, defaultPred a = false) →
        jsMatch env val args =
          Except.error ⟨ErrKind.referenceError, "`matcher` needs to contain a default `_def` arm"⟩) := by
  constructor
  · intro r h
    simp only [jsMatch] at h
    split at h
    · rcases hfd : (normalizeMatcher args).find? defaultPred with _ | d
      · rcases hargs : normalizeMatcher args with _ | ⟨a, t⟩
        · rw [hargs] at h
          exact Except.noConfusion h
        · rw [hargs] at hfd
          rw [hargs, matchArms_find_none env val (a :: t) (by simp) hfd] at h
          exact Except.noConfusion h
      · exact ⟨d, List.mem_of_find?_eq_some hfd, List.find?_some hfd⟩
    · exact Except.noConfusion h
  · intro hshape hne hall
    have hfd : (normalizeMatcher args).find? defaultPred = none :=
      List.find?_eq_none.mpr (fun a ha => by rw [hall a ha]; simp)
    simp only [jsMatch, hshape, if_true]
    exact matchArms_find_none env val (normalizeMatcher args) hne hfd

/-- Closed instance of the C8 amended theorem: a shape-valid matcher with a
non-empty arm list and no default arm is rejected with the ReferenceError. -/
theorem match_default_required_witness :
    jsMatch trivEnv (JsValue.num 0)
        [JsValue.arr 5 [JsValue.arr 6 [JsValue.num 1, JsValue.num 2]]] =
      Except.error ⟨ErrKind.referenceError, "`matcher` needs to contain a default `_def` arm"⟩ :=
  (match_default_required trivEnv (JsValue.num 0)
      [JsValue.arr 5 [JsValue.arr 6 [JsValue.num 1, JsValue.num 2]]]).2
    rfl
    (by
      rw [show normalizeMatcher [JsValue.arr 5 [JsValue.arr 6 [JsValue.num 1, JsValue.num 2]]] =
          [⟨JsValue.arr 6 [JsValue.num 1, JsValue.num 2], JsValue.undef⟩] from rfl]
      simp)
    (by
      intro a ha
      rw [show normalizeMatcher [JsValue.arr 5 [JsValue.arr 6 [JsValue.num 1, JsValue.num 2]]] =
          [⟨JsValue.arr 6 [JsValue.num 1, JsValue.num 2], JsValue.undef⟩] from rfl] at ha
      rw [List.mem_singleton.mp ha]
      rfl)

/-- The record `{ "a": 1, [_def]: "dflt" }` written with the string key
first, for the arm-order counterexample. -/
def reorderDemoObj : JsValue :=
  JsValue.obj 1 [(JsKey.str "a", JsValue.num 1), (JsKey.sym 0, JsValue.str "dflt")]

/-- C9 fails on the code as stated for the basic form: the caller supplied
the string key `"a"` before the symbol key, yet normalization puts the
symbol-keyed arm first (`getOwnPropertySymbols` results are concatenated
before `getOwnPropertyNames` results), so normalized order is not caller
order. -/
theorem basic_order_counterexample :
    normalizeBasicMatcher reorderDemoObj =
        [⟨JsValue.sym 0, JsValue.str "dflt"⟩, ⟨JsValue.str "a", JsValue.num 1⟩]
    ∧ normalizeBasicMatcher reorderDemoObj ≠
        [⟨JsValue.str "a", JsValue.num 1⟩, ⟨JsValue.sym 0, JsValue.str "dflt"⟩] := by
  constructor
  · rfl
  · intro h
    rw [show normalizeBasicMatcher reorderDemoObj =
        [⟨JsValue.sym 0, JsValue.str "dflt"⟩, ⟨JsValue.str "a", JsValue.num 1⟩] from rfl] at h
    simp at h

/-- C9 amended: the advanced form preserves caller argument order (the
surviving entries keep their relative order, as a sublist of the argument
list); the basic form instead uses the host enumeration order: all
symbol-keyed arms first (in insertion order), then the string-keyed arms in
`getOwnPropertyNames` order. -/
theorem arm_order_amended (args : List JsValue) (rid : Nat)
    (props : List (JsKey × JsValue)) :
    ((normalizeAdvancedMatcher args).map MatchArm.matchExpression =
        (args.filter (fun a => isNonEmptyArray a)).map (fun a => jsIndex a 0))
    ∧ List.Sublist (args.filter (fun a => isNonEmptyArray a)) args
    ∧ ((normalizeBasicMatcher (JsValue.obj rid props)).map MatchArm.matchExpression =
        (ownPropSymbols props).map JsValue.sym ++ (ownPropNames props).map JsValue.str) := by
  refine ⟨?_, List.filter_sublist args, ?_⟩
  · rw [normalizeAdvancedMatcher, List.map_map]
    rfl
  · simp only [normalizeBasicMatcher, List.map_map, List.map_append]
    rfl

/-- Closed instance of the C9 amended theorem on concrete arguments. -/
theorem arm_order_amended_witness :
    (normalizeAdvancedMatcher [JsValue.arr 3 [JsValue.num 1, JsValue.num 2]]).map
        MatchArm.matchExpression =
      ([JsValue.arr 3 [JsValue.num 1, JsValue.num 2]].filter
        (fun a => isNonEmptyArray a)).map (fun a => jsIndex a 0) :=
  (arm_order_amended [JsValue.arr 3 [JsValue.num 1, JsValue.num 2]] 0 []).1

theorem insertPair_length (x : Nat × String) (l : List (Nat × String)) :
    (insertPair x l).length = l.length + 1 := by
  induction l with
  | nil => rfl
  | cons y t ih =>
    simp only [insertPair]
    split
    · simp
    · simp only [List.length_cons, ih]

theorem insortPairs_length (l : List (Nat × String)) :
    (insortPairs l).length = l.length := by
  induction l with
  | nil => rfl
  | cons x t ih => simp only [insortPairs, insertPair_length, ih, List.length_cons]

theorem length_filterMap_add_filter_isNone (l : List String) :
    (l.filterMap (fun s => (parseCanonicalIndex s).map (fun n => (n, s)))).length +
      (l.filter (fun s => (parseCanonicalIndex s).isNone)).length = l.length := by
  induction l with
  | nil => rfl
  | cons s t ih =>
    cases h : parseCanonicalIndex s with
    | none =>
      simp only [List.filterMap_cons, List.filter_cons, h, Option.map_none',
        Option.isNone_none, if_true, List.length_cons]
      omega
    | some n =>
      simp only [List.filterMap_cons, List.filter_cons, h, Option.map_some',
        Option.isNone_some, Bool.false_eq_true, if_false, List.length_cons]
      omega

theorem filterMap_keyStr_length (props : List (JsKey × JsValue))
    (hstr : ∀ p ∈ props, ∃ s, p.fst = JsKey.str s) :
    (props.filterMap (fun p => keyStr p.fst)).length = props.length := by
  induction props with
  | nil => rfl
  | cons p t ih =>
    obtain ⟨s, hs⟩ := hstr p (List.mem_cons_self p t)
    simp only [List.filterMap_cons, hs, keyStr, List.length_cons]
    exact congrArg (· + 1) (ih (fun q hq => hstr q (List.mem_cons_of_mem p hq)))

theorem ownPropNames_length (props : List (JsKey × JsValue))
    (hstr : ∀ p ∈ props, ∃ s, p.fst = JsKey.str s) :
    (ownPropNames props).length = props.length := by
  simp only [ownPropNames]
  rw [List.length_append, List.length_map, insortPairs_length,
    length_filterMap_add_filter_isNone, filterMap_keyStr_length props hstr]

theorem jsIn_str_eq_mem (rid : Nat) (props : List (JsKey × JsValue)) (s : String)
    (hp : s ∈ objectProtoNames → JsKey.str s ∈ props.map Prod.fst) :
    jsIn (JsValue.str s) (JsValue.obj rid props) =
      decide (JsKey.str s ∈ props.map Prod.fst) := by
  by_cases hmem : JsKey.str s ∈ props.map Prod.fst
  · have hany : props.any (fun p => p.fst == JsKey.str s) = true := by
      rw [List.any_eq_true]
      obtain ⟨p, hpmem, hpeq⟩ := List.mem_map.mp hmem
      exact ⟨p, hpmem, by rw [hpeq]; exact beq_self_eq_true (JsKey.str s)⟩
    simp [jsIn, toPropertyKey, jsToStr, hany, hmem]
  · have hany : props.any (fun p => p.fst == JsKey.str s) = false := by
      rw [← Bool.not_eq_true, List.any_eq_true]
      rintro ⟨p, hpmem, hpeq⟩
      exact hmem (List.mem_map.mpr ⟨p, hpmem, by simpa using hpeq⟩)
    have hnotin : s ∉ objectProtoNames := fun hin => hmem (hp hin)
    simp [jsIn, toPropertyKey, jsToStr, hany, hnotin, hmem]

theorem nodup_filter_length_iff {α : Type} [DecidableEq α] (P K : List α)
    (hP : P.Nodup) (hK : K.Nodup) :
    ((K.filter (fun k => decide (k ∈ P))).length = P.length ∧ P.length = K.length) ↔
      P.toFinset = K.toFinset := by
  have hfn : (K.filter (fun k => decide (k ∈ P))).Nodup := hK.filter _
  have h1 : (K.filter (fun k => decide (k ∈ P))).toFinset = K.toFinset ∩ P.toFinset := by
    ext a
    simp [List.mem_toFinset, List.mem_filter]
  have h2 : (K.filter (fun k => decide (k ∈ P))).length = (K.toFinset ∩ P.toFinset).card := by
    rw [← List.toFinset_card_of_nodup hfn, h1]
  have hPc : P.toFinset.card = P.length := List.toFinset_card_of_nodup hP
  have hKc : K.toFinset.card = K.length := List.toFinset_card_of_nodup hK
  constructor
  · rintro ⟨hl, he⟩
    have hPK : K.toFinset ∩ P.toFinset = P.toFinset := by
      apply Finset.eq_of_subset_of_card_le Finset.inter_subset_right
      rw [hPc, ← hl, h2]
    have hsub : P.toFinset ⊆ K.toFinset := by
      rw [← hPK]
      exact Finset.inter_subset_left
    apply Finset.eq_of_subset_of_card_le hsub
    rw [hPc, hKc]
    exact le_of_eq he.symm
  · intro he
    have hlen : P.length = K.length := by rw [← hPc, ← hKc, he]
    refine ⟨?_, hlen⟩
    rw [h2, he, Finset.inter_self, hKc]
    exact hlen.symm

/-- C10 fails on the code as stated: with `keys = ["a", "a"]` and an object
whose only own key is `"a"`, the key set of the object and the set of
elements of `keys` are equal, yet `hasOnlyKeys` returns false because it
counts the entries of `keys` with multiplicity. -/
theorem hasOnlyKeys_counterexample :
    hasOnlyKeys (JsValue.obj 0 [(JsKey.str "a", JsValue.num 1)])
        (JsValue.arr 1 [JsValue.str "a", JsValue.str "a"]) = false
    ∧ ([(JsKey.str "a", JsValue.num 1)].map Prod.fst).toFinset =
        ([JsValue.str "a", JsValue.str "a"].map toPropertyKey).toFinset := by
  constructor
  · rfl
  · decide

/-- C10 amended: for an object with pairwise-distinct string own keys and an
array of pairwise-distinct string entries none of which is an inherited
`Object.prototype` name (unless it is also an own key), `hasOnlyKeys`
returns true exactly when the set of own keys equals the set of elements of
`keys`; with duplicated entries or inherited names the equivalence fails
(see the counterexample). -/
theorem hasOnlyKeys_set_characterization
    (rid kid : Nat) (props : List (JsKey × JsValue)) (kelems : List JsValue)
    (hstr : ∀ p ∈ props, ∃ s, p.fst = JsKey.str s)
    (hnodup : (props.map Prod.fst).Nodup)
    (hkstr : ∀ k ∈ kelems, ∃ s, k = JsValue.str s)
    (hknodup : kelems.Nodup)
    (hproto : ∀ s, JsValue.str s ∈ kelems → s ∈ objectProtoNames →
        JsKey.str s ∈ props.map Prod.fst) :
    (hasOnlyKeys (JsValue.obj rid props) (JsValue.arr kid kelems) = true ↔
      (props.map Prod.fst).toFinset = (kelems.map toPropertyKey).toFinset) := by
  have hred : hasOnlyKeys (JsValue.obj rid props) (JsValue.arr kid kelems) = true ↔
      ((kelems.filter (fun k => jsIn k (JsValue.obj rid props))).length =
          (ownPropNames props).length
        ∧ (ownPropNames props).length = kelems.length) := by
    simp [hasOnlyKeys, isEqual, jsStrictEq]
  have hfil : kelems.filter (fun k => jsIn k (JsValue.obj rid props)) =
      kelems.filter (fun k => decide (toPropertyKey k ∈ props.map Prod.fst)) := by
    apply List.filter_congr
    intro k hk
    obtain ⟨s, rfl⟩ := hkstr k hk
    rw [jsIn_str_eq_mem rid props s (hproto s hk)]
    rfl
  have hKn : (kelems.map toPropertyKey).Nodup := by
    apply List.Nodup.map_on ?_ hknodup
    intro x hx y hy hxy
    obtain ⟨sx, rfl⟩ := hkstr x hx
    obtain ⟨sy, rfl⟩ := hkstr y hy
    have h1 : JsKey.str sx = JsKey.str sy := hxy
    injection h1 with h2
    rw [h2]
  have hlen2 : (kelems.filter (fun k => decide (toPropertyKey k ∈ props.map Prod.fst))).length =
      ((kelems.map toPropertyKey).filter
        (fun k => decide (k ∈ props.map Prod.fst))).length := by
    rw [List.filter_map, List.length_map]
    rfl
  have hplen : props.length = (props.map Prod.fst).length := (List.length_map _ _).symm
  have hklen : kelems.length = (kelems.map toPropertyKey).length := (List.length_map _ _).symm
  rw [hred, hfil, hlen2, ownPropNames_length props hstr, hplen, hklen]
  exact nodup_filter_length_iff (props.map Prod.fst) (kelems.map toPropertyKey) hnodup hKn

/-- Closed instance of the C10 amended theorem: with distinct string keys
and no inherited names, set equality of the key sets yields true. -/
theorem hasOnlyKeys_set_characterization_witness :
    hasOnlyKeys
        (JsValue.obj 0 [(JsKey.str "a", JsValue.num 1), (JsKey.str "b", JsValue.num 2)])
        (JsValue.arr 1 [JsValue.str "b", JsValue.str "a"]) = true :=
  (hasOnlyKeys_set_characterization 0 1
      [(JsKey.str "a", JsValue.num 1), (JsKey.str "b", JsValue.num 2)]
      [JsValue.str "b", JsValue.str "a"]
      (by
        intro p hp
        rcases List.mem_cons.mp hp with h | h
        · exact ⟨"a", by rw [h]⟩
        · exact ⟨"b", by rw [List.mem_singleton.mp h]⟩)
      (by decide)
      (by
        intro k hk
        rcases List.mem_cons.mp hk with h | h
        · exact ⟨"b", h⟩
        · exact ⟨"a", List.mem_singleton.mp h⟩)
      (by simp)
      (by
        intro s hs hp
        simp at hs
        rcases hs with h | h <;> (subst h; exact absurd hp (by decide)))).mpr
    (by decide)

/-- C7 fails on the code as stated: `isConstructable` is not total.  When
the construction attempt throws a value without a string `message` property
(here: the thrown primitive 5), the code evaluates
`err.message.indexOf(...)` on `undefined` and itself throws a TypeError
instead of returning a boolean; the attempt also runs the caller's
constructor, so the predicate is not side-effect-free. -/
theorem isConstructable_throws_counterexample :
    isConstructable (fun _ => ConstructOutcome.throws (JsValue.num 5)) (JsValue.func 0) =
      Except.error ⟨ErrKind.typeError, "err.message.indexOf is not a function"⟩ := rfl

/-- C7 amended: every predicate of the Conditionals layer other than
`isConstructable` is total and side-effect-free (they are plain boolean
functions of the value in this embedding); `isConstructable` invokes its
argument as a constructor and returns a boolean whenever every construction
attempt either succeeds or throws a value whose `message` property is a
string. -/
theorem isConstructable_total_of_string_messages (cenv : Nat → ConstructOutcome)
    (v : JsValue)
    (hmsg : ∀ fid e, cenv fid = ConstructOutcome.throws e →
        ∃ s, getProp e "message" = JsValue.str s) :
    ∃ b : Bool, isConstructable cenv v = Except.ok b := by
  cases v with
  | func fid =>
    cases hc : cenv fid with
    | success => exact ⟨true, by simp [isConstructable, hc]⟩
    | throws e =>
      obtain ⟨s, hs⟩ := hmsg fid e hc
      exact ⟨!(isNonNegativeInteger (JsValue.num (strIndexOf s "is not a constructor"))),
        by simp [isConstructable, hc, hs]⟩
  | undef => exact ⟨false, rfl⟩
  | nullV => exact ⟨false, rfl⟩
  | bool b => exact ⟨false, rfl⟩
  | num n => exact ⟨false, rfl⟩
  | nan => exact ⟨false, rfl⟩
  | str s => exact ⟨false, rfl⟩
  | sym sid => exact ⟨false, rfl⟩
  | arr rid elems => exact ⟨false, rfl⟩
  | obj rid props => exact ⟨false, rfl⟩

/-- Closed instance of the C7 amended theorem: a callable whose construction
succeeds yields a boolean. -/
theorem isConstructable_total_witness :
    ∃ b : Bool, isConstructable (fun _ => ConstructOutcome.success) (JsValue.func 0) =
      Except.ok b :=
  isConstructable_total_of_string_messages (fun _ => ConstructOutcome.success)
    (JsValue.func 0) (fun _ _e h => ConstructOutcome.noConfusion h)

end ModUtils
